import Mathlib

/-!
# Verification of `file-serving-node/server.js`

A shallow embedding of the core of `server.js`: the path-containment logic
(`safeJoin`, backed by a model of Node's posix `path.join` / `path.normalize` /
`path.basename` / `path.extname`), the binary buffer splitter (`splitBuffer`),
the multipart parsing and upload validation pipeline (`parseMultipart`,
`handleUpload`), and the request router (`server`).

Modelling conventions:
* JS strings and Node `Buffer`s are both modelled as `List Nat` (byte / code
  unit sequences); all string data handled by the program is ASCII, where the
  two views agree.  `ascii` converts a Lean string literal to this form.
* `decodeURIComponent` is modelled byte-wise (`percentDecode`): each `%XX`
  escape decodes to the byte `XX`, and a malformed escape yields `none`,
  modelling the thrown `URIError`.  (The UTF-8 re-validation that the real
  function performs on multi-byte sequences is not modelled; on ASCII data
  and on outputs of `encodeURIComponent` the two agree.)
* The filesystem is a association list from absolute paths to file contents;
  `fs.writeFileSync` conses an entry, `fs.readFile` looks one up (a missing
  entry is `ENOENT`, i.e. 404).  Other I/O errors (the 500 branch) and the
  MIME lookup - plumbing external to the core per the code's structure - are
  not modelled; a `Resp` is a status code plus a body.
* `Date.now()` is passed in as an arbitrary `now : Nat` parameter.
* Functions that the source writes as an imperative loop with an index or
  cursor are written with an explicit fuel argument bounding the number of
  iterations (the fuel is always sufficient; where a proof needs this it is
  established as a lemma), so that every definition is structurally recursive
  and evaluates by kernel reduction.
-/

/-- Convert an ASCII Lean string literal to the byte-list model of JS strings. -/
def ascii (s : String) : List Nat := s.data.map Char.toNat

/-- Lower-case one ASCII byte (model of `String.prototype.toLowerCase` /
the `i` regex flag, which on ASCII data only folds `A`-`Z`). -/
def lcByte (b : Nat) : Nat := if 65 ≤ b ∧ b ≤ 90 then b + 32 else b

/-- Bytes that terminate a line for the purposes of the JS regex `.`
(which matches any character except a line terminator): `\n` and `\r`. -/
def nonTerm (b : Nat) : Bool := !(b == 10 || b == 13)

/-- `s.split(sep)[0]`: the part of `s` before the first occurrence of the
single-byte separator `sep` (the whole of `s` if absent). -/
def takeBefore (sep : Nat) (s : List Nat) : List Nat := s.takeWhile (fun b => b != sep)

/-- Value of an ASCII hex digit, `none` for a non-hex byte. -/
def hexVal (b : Nat) : Option Nat :=
  if 48 ≤ b ∧ b ≤ 57 then some (b - 48)
  else if 65 ≤ b ∧ b ≤ 70 then some (b - 55)
  else if 97 ≤ b ∧ b ≤ 102 then some (b - 87)
  else none

/-- Byte-wise model of `decodeURIComponent` (line 20 of `server.js`): every
`%XX` escape becomes the byte `XX`; a `%` not followed by two hex digits makes
the whole call fail (`none`), modelling the thrown `URIError`. -/
def percentDecode : List Nat → Option (List Nat)
  | [] => some []
  | 37 :: h1 :: h2 :: rest =>
    match hexVal h1, hexVal h2 with
    | some v1, some v2 => (percentDecode rest).map (fun t => (16 * v1 + v2) :: t)
    | _, _ => none
  | 37 :: _ :: [] => none
  | 37 :: [] => none
  | b :: rest => (percentDecode rest).map (fun t => b :: t)

/-- Bytes left unescaped by `encodeURIComponent`:
`A`-`Z`, `a`-`z`, `0`-`9` and `- _ . ! ~ * ' ( )`. -/
def unreservedByte (b : Nat) : Bool :=
  (48 ≤ b && b ≤ 57) || (65 ≤ b && b ≤ 90) || (97 ≤ b && b ≤ 122) ||
  (b == 45) || (b == 95) || (b == 46) || (b == 33) || (b == 126) ||
  (b == 42) || (b == 39) || (b == 40) || (b == 41)

/-- Upper-case hex digit of a value `< 16`. -/
def hexDigit (n : Nat) : Nat := if n < 10 then 48 + n else 55 + n

/-- Byte-wise model of `encodeURIComponent` (used for the upload link,
line 120): unreserved bytes kept, every other byte escaped as `%XX`. -/
def encodeURIComponent (s : List Nat) : List Nat :=
  s.foldr (fun b acc =>
    if unreservedByte b then b :: acc
    else 37 :: hexDigit (b / 16) :: hexDigit (b % 16) :: acc) []

/-! ## `Buffer.indexOf` and `splitBuffer` (lines 42-53) -/

/-- Model of `buffer.indexOf(separator)`: index of the first occurrence of
`sep` as a contiguous sub-list of `buf`, `none` when absent (`-1` in JS).
Like Node, an empty separator is found at index 0. -/
def bufIndexOf : List Nat → List Nat → Option Nat
  | [], sep => if sep = [] then some 0 else none
  | b :: rest, sep =>
    if sep.isPrefixOf (b :: rest) then some 0
    else (bufIndexOf rest sep).map (· + 1)

/-- The scanning loop of `splitBuffer`: repeatedly find the separator in the
not-yet-consumed suffix, emit the fragment before it, and continue after it.
`fuel` bounds the number of iterations; `splitBuffer` supplies enough fuel
for any non-empty separator (the only case in which the source loop
terminates, and the only case the program uses). -/
def splitLoop (sep : List Nat) : Nat → List Nat → List (List Nat)
  | 0, buf => [buf]
  | fuel + 1, buf =>
    match bufIndexOf buf sep with
    | none => [buf]
    | some i => buf.take i :: splitLoop sep fuel (buf.drop (i + sep.length))

/-- Model of `splitBuffer(buffer, separator)` (lines 42-53). -/
def splitBuffer (buffer separator : List Nat) : List (List Nat) :=
  splitLoop separator (buffer.length + 1) buffer

/-- Number of (non-overlapping, leftmost-first) occurrences of `sep` found by
the same left-to-right scan that `splitBuffer` performs. -/
def countLoop (sep : List Nat) : Nat → List Nat → Nat
  | 0, _ => 0
  | fuel + 1, buf =>
    match bufIndexOf buf sep with
    | none => 0
    | some i => countLoop sep fuel (buf.drop (i + sep.length)) + 1

/-- Occurrence count of a separator in a buffer under left-to-right scanning. -/
def countOccurrences (buffer separator : List Nat) : Nat :=
  countLoop separator (buffer.length + 1) buffer

/-! ## Node posix path primitives (external collaborators of `safeJoin`) -/

/-- Split a byte string on `/` (47), keeping empty segments, as the posix
`path.normalize` segment scan does. -/
def splitSegs : List Nat → List (List Nat)
  | [] => [[]]
  | b :: rest =>
    let r := splitSegs rest
    if b = 47 then [] :: r
    else
      match r with
      | h :: t => (b :: h) :: t
      | [] => [[b]]

/-- The segment-stack step of Node's `normalizeString`: empty and `.`
segments are dropped; `..` pops the last real segment, and above the root it
is kept only for relative paths (`allowAbove`).  The stack is kept reversed
(head = most recent segment). -/
def normStep (allowAbove : Bool) (st : List (List Nat)) (seg : List Nat) : List (List Nat) :=
  if seg = [] ∨ seg = [46] then st
  else if seg = [46, 46] then
    match st with
    | [] => if allowAbove then [[46, 46]] else []
    | top :: rest =>
      if top = [46, 46] then (if allowAbove then seg :: top :: rest else top :: rest)
      else rest
  else seg :: st

/-- Model of posix `path.normalize`: resolve `.` and `..` segments, collapse
repeated slashes, preserve a trailing slash, with the `.` / `/` fallbacks of
the Node implementation. -/
def normalizePath (p : List Nat) : List Nat :=
  if p = [] then [46]
  else
    let isAbs := p.head? = some 47
    let trail := p.getLast? = some 47
    let core := List.intercalate [47] (((splitSegs p).foldl (normStep (!decide isAbs)) []).reverse)
    if core = [] then (if isAbs then [47] else if trail then [46, 47] else [46])
    else (if isAbs then [47] else []) ++ core ++ (if trail then [47] else [])

/-- Model of posix `path.join` for two arguments: empty arguments are
dropped, the rest are joined with `/` and the result normalized; all-empty
input gives `.`. -/
def pathJoin (a b : List Nat) : List Nat :=
  if a = [] ∧ b = [] then [46]
  else if a = [] then normalizePath b
  else if b = [] then normalizePath a
  else normalizePath (a ++ 47 :: b)

/-- Model of posix `path.basename` (no suffix argument): strip trailing
slashes, then take the final component. -/
def basename (p : List Nat) : List Nat :=
  ((p.reverse.dropWhile (· == 47)).takeWhile (· != 47)).reverse

/-- State of the scanning loop of posix `path.extname`: the index of the
right-most dot (`startDot`), the start of the final path component
(`startPart`), one past the last non-slash character (`endd`), whether only
trailing slashes have been seen so far (`matchedSlash`), and Node's
`preDotState` (`0`: nothing but dots seen after `startDot`; `1`: the dot has
another dot right before it; `-1`: a non-dot character precedes the dot). -/
structure ExtState where
  startDot : Option Nat
  startPart : Nat
  endd : Option Nat
  matchedSlash : Bool
  preDot : Int
deriving DecidableEq

/-- The backwards character scan of posix `path.extname`, transcribed from
the Node implementation; the first argument counts down from `p.length`, so
the byte examined is `p[i]` when the argument is `i + 1`. -/
def extLoop (p : List Nat) : Nat → ExtState → ExtState
  | 0, st => st
  | i + 1, st =>
    let code := p.getD i 0
    if code = 47 then
      if st.matchedSlash then extLoop p i st
      else { st with startPart := i + 1 }
    else
      let st1 :=
        if st.endd = none then { st with matchedSlash := false, endd := some (i + 1) } else st
      let st2 :=
        if code = 46 then
          match st1.startDot with
          | none => { st1 with startDot := some i }
          | some _ => if st1.preDot ≠ 1 then { st1 with preDot := 1 } else st1
        else if st1.startDot ≠ none then { st1 with preDot := -1 } else st1
      extLoop p i st2

/-- Model of posix `path.extname`: the final-component suffix starting at the
last dot, with Node's special cases (no dot, leading dot, the component
`..`) yielding the empty extension. -/
def extname (p : List Nat) : List Nat :=
  let st := extLoop p p.length ⟨none, 0, none, true, 0⟩
  match st.startDot, st.endd with
  | some sd, some e =>
    if st.preDot = 0 ∨ (st.preDot = 1 ∧ sd + 1 = e ∧ sd = st.startPart + 1) then []
    else (p.take e).drop sd
  | _, _ => []

/-! ## `safeJoin` (lines 19-26) -/

/-- Model of `safeJoin(baseDir, urlPath)` (lines 19-26).  The outer `Option`
is exceptional control flow: `none` models the `URIError` that
`decodeURIComponent` throws on a malformed escape (uncaught in the source).
`some none` is the function returning `null` (rejected), `some (some p)` a
returned path.  Per the source: query string is cut before decoding, the
fragment after decoding, leading slashes are stripped, the path is joined
onto `baseDir`, and the result must start with `baseDir + '/'`. -/
def safeJoin (baseDir urlPath : List Nat) : Option (Option (List Nat)) :=
  match percentDecode (takeBefore 63 urlPath) with
  | none => none
  | some dec =>
    let cleanPath := takeBefore 35 dec
    let relative := cleanPath.dropWhile (· == 47)
    let absPath := pathJoin baseDir relative
    let safeRoot := baseDir ++ [47]
    some (if safeRoot.isPrefixOf absPath then some absPath else none)

/-! ## Filesystem, responses, `serveFile` (lines 28-40) -/

/-- The filesystem: an association list from absolute paths to byte
contents.  `fs.writeFileSync` conses an entry; a path with no entry reads as
`ENOENT`. -/
abbrev Fs : Type := List (List Nat × List Nat)

/-- Read a file: the most recently written content under the path. -/
def fsRead (fs : Fs) (p : List Nat) : Option (List Nat) :=
  (List.find? (fun e => e.1 == p) fs).map (·.2)

/-- An HTTP response: status code and body bytes.  (Content-type inference
via the `mime` package is plumbing outside the modelled core.) -/
structure Resp where
  status : Nat
  body : List Nat
deriving DecidableEq

/-- Model of `serveFile` (lines 28-40): a missing file is the `ENOENT` 404
branch, a present file is served with status 200 and its exact bytes.
(Other I/O errors, the 500 branch, do not arise in this filesystem model.) -/
def serveFile (filePath : List Nat) (fs : Fs) : Resp :=
  match fsRead fs filePath with
  | none => ⟨404, ascii "<h1>404 - File Not Found</h1>"⟩
  | some content => ⟨200, content⟩

/-! ## `parseMultipart` (lines 55-61) -/

/-- `part.slice(2, part.length - 2)`: strip the 2-byte CRLF padding on both
sides (JS slice clamping makes any fragment shorter than 4 bytes empty,
which truncated Nat subtraction reproduces). -/
def stripCrlfPad (part : List Nat) : List Nat :=
  (part.drop 2).take (part.length - 4)

/-- Model of `parseMultipart(buffer, boundary)` (lines 55-61): split on the
literal `--boundary`, strip CRLF padding, drop empty fragments. -/
def parseMultipart (buffer boundary : List Nat) : List (List Nat) :=
  ((splitBuffer buffer ([45, 45] ++ boundary)).map stripCrlfPad).filter
    (fun part => part.length > 0)

/-! ## The `Content-Disposition` regex (line 97)

`headerText.match(/content-disposition:.*name="([^"]+)"(?:; filename="([^"]+)")?/i)`
is modelled by `dispositionMatch`, which implements the backtracking
semantics of this particular pattern: the match starts at the leftmost
position where the case-insensitive literal `content-disposition:` matches;
the greedy `.*` (which cannot cross a line terminator) makes the engine take
the *right-most* position on that line where `name="` followed by a
non-empty quote-free run and a closing quote matches, and the optional
`; filename="..."` group is then tried exactly at the cursor after the
closing quote (matching empty when it fails).  Group 1 is the captured name,
group 2 the optional captured filename. -/

/-- Does the lower-cased form of `lit` (given lower-case) occur in `s` at
offset `i`?  Models case-insensitive literal matching under the `i` flag. -/
def ciPrefixAt (lit s : List Nat) (i : Nat) : Bool :=
  ((s.drop i).take lit.length).map lcByte == lit

/-- Try `name="([^"]+)"` at offset `q`: on success, the captured group and
the offset just after the closing quote. -/
def nameCapture (hdr : List Nat) (q : Nat) : Option (List Nat × Nat) :=
  if ciPrefixAt (ascii "name=\"") hdr q then
    let v := (hdr.drop (q + 6)).takeWhile (fun b => b != 34)
    if v.length = 0 then none
    else if q + 6 + v.length < hdr.length then some (v, q + 6 + v.length + 1)
    else none
  else none

/-- Try the optional `(?:; filename="([^"]+)")?` group at offset `t`; `none`
(the group matching empty, an `undefined` capture) when it cannot match. -/
def filenameCapture (hdr : List Nat) (t : Nat) : Option (List Nat) :=
  if ciPrefixAt (ascii "; filename=\"") hdr t then
    let w := (hdr.drop (t + 12)).takeWhile (fun b => b != 34)
    if w.length ≠ 0 ∧ t + 12 + w.length < hdr.length then some w else none
  else none

/-- Backtracking scan of the greedy `.*`: try `q` descending (`count` bounds
the positions tried), returning the captures of the right-most viable
position. -/
def scanQ (hdr : List Nat) : Nat → Nat → Option (List Nat × Option (List Nat))
  | 0, _ => none
  | count + 1, q =>
    match nameCapture hdr q with
    | some (v, t) => some (v, filenameCapture hdr t)
    | none => scanQ hdr count (q - 1)

/-- Attempt a match whose `content-disposition:` literal sits at offset `p`:
`.*` may reach any offset on the same line (up to the first line
terminator), scanned right-to-left. -/
def tryccAt (hdr : List Nat) (p : Nat) : Option (List Nat × Option (List Nat)) :=
  let start := p + 20
  let lineEnd := start + ((hdr.drop start).takeWhile nonTerm).length
  scanQ hdr (lineEnd - start + 1) lineEnd

/-- Leftmost-start scan: try each offset `p` ascending for the
`content-disposition:` literal, taking the first that admits a full match. -/
def scanP (hdr : List Nat) : Nat → Nat → Option (List Nat × Option (List Nat))
  | 0, _ => none
  | count + 1, p =>
    if ciPrefixAt (ascii "content-disposition:") hdr p then
      match tryccAt hdr p with
      | some g => some g
      | none => scanP hdr count (p + 1)
    else scanP hdr count (p + 1)

/-- Model of `headerText.match(...)` on line 97: `none` when the regex does
not match, otherwise the pair of capture groups. -/
def dispositionMatch (hdr : List Nat) : Option (List Nat × Option (List Nat)) :=
  scanP hdr (hdr.length + 1) 0

/-! ## `handleUpload` (lines 63-127) -/

/-- The per-part guards of the upload loop (lines 93-101): the part must
contain the 4-byte `CRLF CRLF` header separator, its header text must match
the disposition regex, the captured name must be `file` and the captured
filename must be truthy (present and non-empty); the result is the raw
filename together with the part body after the separator. -/
def partCandidate (part : List Nat) : Option (List Nat × List Nat) :=
  match bufIndexOf part [13, 10, 13, 10] with
  | none => none
  | some headerEnd =>
    let headerText := part.take headerEnd
    let data := part.drop (headerEnd + 4)
    match dispositionMatch headerText with
    | none => none
    | some (fieldName, fileNameRaw) =>
      if fieldName = ascii "file" then
        match fileNameRaw with
        | some fn => if fn = [] then none else some (fn, data)
        | none => none
      else none

/-- Decimal digits of `Date.now()` as bytes (the `${Date.now()}` template). -/
def natDigitsAux : Nat → Nat → List Nat
  | 0, _ => []
  | fuel + 1, n => if n < 10 then [48 + n] else natDigitsAux fuel (n / 10) ++ [48 + n % 10]

def natDigits (n : Nat) : List Nat := natDigitsAux (n + 1) n

/-- The 200 response body of a successful upload (lines 120-121):
`<h1>Upload complete</h1><p><a href="/uploads/ENC">View file</a></p>` where
`ENC` is the URL-encoded stored name. -/
def uploadHtml (enc : List Nat) : List Nat :=
  ascii "<h1>Upload complete</h1><p><a href=\"/uploads/" ++ enc ++
    ascii "\">View file</a></p>"

/-- The extension allow-list (line 10). -/
def allowedExtensions : List (List Nat) :=
  [ascii ".png", ascii ".jpg", ascii ".jpeg", ascii ".gif", ascii ".pdf", ascii ".txt"]

/-- The `for (const part of parts)` loop plus the post-loop `savedFile`
check (lines 92-121): skip non-candidate parts; on the first candidate,
reject a disallowed extension with 415, otherwise write
`{uploadDir}/{Date.now()}-{basename}` and answer 200 with the link; an
exhausted loop answers 400. -/
def processParts (uploadDir : List Nat) (now : Nat) (fs : Fs) :
    List (List Nat) → Resp × Fs
  | [] => (⟨400, ascii "No file uploaded"⟩, fs)
  | part :: rest =>
    match partCandidate part with
    | none => processParts uploadDir now fs rest
    | some (fileNameRaw, data) =>
      let safeName := basename fileNameRaw
      let ext := (extname safeName).map lcByte
      if allowedExtensions.contains ext then
        let finalName := natDigits now ++ [45] ++ safeName
        let targetPath := pathJoin uploadDir finalName
        (⟨200, uploadHtml (encodeURIComponent finalName)⟩, (targetPath, data) :: fs)
      else (⟨415, ascii "File type not allowed"⟩, fs)

/-- The `end` handler of `handleUpload` (lines 87-122) applied to the
buffered body. -/
def handleUploadEnd (uploadDir : List Nat) (now : Nat) (boundary body : List Nat)
    (fs : Fs) : Resp × Fs :=
  processParts uploadDir now fs (parseMultipart body boundary)

/-- Outcome of the streaming `data` handler (lines 78-85). -/
inductive StreamOut where
  | accepted (body : List Nat)
  | rejectedAt (k : Nat)
deriving DecidableEq

/-- The 10 MiB upload limit `MAX_UPLOAD_BYTES` (line 9). -/
def MAX_UPLOAD_BYTES : Nat := 10 * 1024 * 1024

/-- The `data` handler loop: add each chunk's length to the running total;
the first chunk pushing the total over the limit destroys the request
(`rejectedAt` its index, counted from the current position); otherwise the
chunks are buffered and concatenated by `Buffer.concat` at `end`. -/
def streamPhase (total : Nat) : List (List Nat) → StreamOut
  | [] => .accepted []
  | c :: rest =>
    if MAX_UPLOAD_BYTES < total + c.length then .rejectedAt 0
    else
      match streamPhase (total + c.length) rest with
      | .accepted body => .accepted (c ++ body)
      | .rejectedAt k => .rejectedAt (k + 1)

/-- Index of the chunk on which the size guard fires (meaningful when the
total exceeds the limit). -/
def crossIdx (total : Nat) : List (List Nat) → Nat
  | [] => 0
  | c :: rest =>
    if MAX_UPLOAD_BYTES < total + c.length then 0
    else crossIdx (total + c.length) rest + 1

/-- Sum of the chunk sizes of a streamed body. -/
def sumLen (chunks : List (List Nat)) : Nat := (chunks.map List.length).sum

/-- Model of `contentType.match(/boundary=(.+)$/)` (line 69): the leftmost
occurrence of the literal `boundary=` (case-sensitive) after which the rest
of the string is non-empty and free of line terminators (`.` cannot match
them and `$` anchors at the very end); the capture is that whole rest. -/
def boundaryScan (ct : List Nat) : Nat → Nat → Option (List Nat)
  | 0, _ => none
  | count + 1, i =>
    if (ct.drop i).take 9 == ascii "boundary=" then
      let rest := ct.drop (i + 9)
      if rest ≠ [] ∧ rest.all nonTerm then some rest
      else boundaryScan ct count (i + 1)
    else boundaryScan ct count (i + 1)

def boundaryMatch (ct : List Nat) : Option (List Nat) :=
  boundaryScan ct (ct.length + 1) 0

/-- Model of `handleUpload(req, res)` (lines 63-127) for a request whose
body arrives as `chunks`: reject a content type without
`multipart/form-data` (400), then one without a matchable `boundary=` (400,
before any body handler is registered - note the result does not depend on
`chunks`); then stream the body under the size guard (413 destroys the
request, the `end` handler never runs and nothing is written) and hand the
buffered body to the part loop. -/
def handleUpload (uploadDir : List Nat) (now : Nat) (contentType : List Nat)
    (chunks : List (List Nat)) (fs : Fs) : Resp × Fs :=
  if bufIndexOf contentType (ascii "multipart/form-data") = none then
    (⟨400, ascii "Invalid form encoding"⟩, fs)
  else
    match boundaryMatch contentType with
    | none => (⟨400, ascii "Missing boundary"⟩, fs)
    | some boundary =>
      match streamPhase 0 chunks with
      | .rejectedAt _ => (⟨413, ascii "File too large"⟩, fs)
      | .accepted body => handleUploadEnd uploadDir now boundary body fs

/-! ## The request router (lines 129-151) -/

/-- `url.replace(pat, '')`: remove the first occurrence of `pat`. -/
def replaceOnce (s pat : List Nat) : List Nat :=
  match bufIndexOf s pat with
  | none => s
  | some i => s.take i ++ s.drop (i + pat.length)

/-- Model of the `http.createServer` callback (lines 129-151).  `pub` and
`upl` are `PUBLIC_DIR` and `UPLOAD_DIR`.  The outer `Option` is `none` when
an exception escapes the handler (a `URIError` from `safeJoin`); otherwise
the response together with the (possibly updated) filesystem. -/
def server (pub upl : List Nat) (now : Nat) (method url contentType : List Nat)
    (chunks : List (List Nat)) (fs : Fs) : Option (Resp × Fs) :=
  if method = ascii "POST" ∧ url = ascii "/upload" then
    some (handleUpload upl now contentType chunks fs)
  else if method ≠ ascii "GET" ∧ method ≠ ascii "HEAD" then
    some (⟨405, ascii "Method Not Allowed"⟩, fs)
  else if url = ascii "/" ∨ url = ascii "/index.html" then
    some (serveFile (pathJoin pub (ascii "index.html")) fs, fs)
  else if (ascii "/uploads/").isPrefixOf url then
    match safeJoin upl (replaceOnce url (ascii "/uploads/")) with
    | none => none
    | some none => some (⟨403, ascii "Forbidden"⟩, fs)
    | some (some p) => some (serveFile p fs, fs)
  else
    match safeJoin pub url with
    | none => none
    | some none => some (⟨403, ascii "Forbidden"⟩, fs)
    | some (some p) => some (serveFile p fs, fs)

/-! ## Concrete request vectors used by counterexample and witness theorems -/

/-- The multipart body of the spec's concrete scenario: boundary `XYZ`, one
part with field name `file`, filename `report.pdf`, body `%PDF-1.4 data`. -/
def bodyPdf : List Nat :=
  ascii "--XYZ\r\nContent-Disposition: form-data; name=\"file\"; filename=\"report.pdf\"\r\n\r\n%PDF-1.4 data\r\n--XYZ--\r\n"

/-- A multipart body (boundary `XYZ`) with one part, field name `file`,
filename `evil.exe` (extension not in the allow-list), body `MZ`. -/
def bodyExe : List Nat :=
  ascii "--XYZ\r\nContent-Disposition: form-data; name=\"file\"; filename=\"evil.exe\"\r\n\r\nMZ\r\n--XYZ--\r\n"

/-- A multipart body (boundary `B`) with two well-formed file parts, both
field name `file`, filenames `a.txt` and `c.txt`. -/
def bodyTwo : List Nat :=
  ascii "--B\r\nContent-Disposition: form-data; name=\"file\"; filename=\"a.txt\"\r\n\r\nAA\r\n--B\r\nContent-Disposition: form-data; name=\"file\"; filename=\"c.txt\"\r\n\r\nCC\r\n--B--\r\n"

/-- A `multipart/form-data` content type carrying a boundary parameter. -/
def ctWithBoundary : List Nat := ascii "multipart/form-data; boundary=XYZ"

/-- A `multipart/form-data` content type with no boundary parameter. -/
def ctNoBoundary : List Nat := ascii "multipart/form-data"
theorem bufIndexOf_spec {buf sep : List Nat} {i : Nat} (h : bufIndexOf buf sep = some i) :
    buf = buf.take i ++ sep ++ buf.drop (i + sep.length) := by
  induction buf generalizing i with
  | nil =>
    simp only [bufIndexOf] at h
    split at h
    · rename_i hsep
      cases h
      simp [hsep]
    · cases h
  | cons b rest ih =>
    simp only [bufIndexOf] at h
    split at h
    · rename_i hpre
      cases h
      rcases List.isPrefixOf_iff_prefix.mp hpre with ⟨t, ht⟩
      simp only [List.take_zero, List.nil_append, List.drop_left']
      rw [← ht]
      simp [List.drop_left']
    · rcases Option.map_eq_some'.mp h with ⟨j, hj, rfl⟩
      have := ih hj
      calc b :: rest = b :: (rest.take j ++ sep ++ rest.drop (j + sep.length)) := by rw [← this]
        _ = (b :: rest).take (j + 1) ++ sep ++ (b :: rest).drop (j + 1 + sep.length) := by
            simp [List.take_succ_cons, Nat.add_right_comm j 1 sep.length]

theorem bufIndexOf_some_le {buf sep : List Nat} {i : Nat} (h : bufIndexOf buf sep = some i) :
    i + sep.length ≤ buf.length := by
  induction buf generalizing i with
  | nil =>
    simp only [bufIndexOf] at h
    split at h
    · rename_i hsep
      cases h
      simp [hsep]
    · cases h
  | cons b rest ih =>
    simp only [bufIndexOf] at h
    split at h
    · rename_i hpre
      cases h
      have := (List.isPrefixOf_iff_prefix.mp hpre).length_le
      simpa using this
    · rcases Option.map_eq_some'.mp h with ⟨j, hj, rfl⟩
      have := ih hj
      simp only [List.length_cons]
      omega

/-- The two scans agree fuel-for-fuel: the split always yields one more
fragment than the occurrences counted. -/
theorem splitLoop_length (sep : List Nat) :
    ∀ (fuel : Nat) (buf : List Nat),
      (splitLoop sep fuel buf).length = countLoop sep fuel buf + 1 := by
  intro fuel
  induction fuel with
  | zero => intro buf; simp [splitLoop, countLoop]
  | succ n ih =>
    intro buf
    simp only [splitLoop, countLoop]
    cases h : bufIndexOf buf sep with
    | none => simp
    | some i => simp [ih]

theorem splitLoop_ne_nil (sep : List Nat) (fuel : Nat) (buf : List Nat) :
    splitLoop sep fuel buf ≠ [] := by
  cases fuel with
  | zero => simp [splitLoop]
  | succ n =>
    simp only [splitLoop]
    cases bufIndexOf buf sep <;> simp

theorem intercalate_cons_of_ne_nil {α : Type} {l : List (List α)} {a sep : List α}
    (h : l ≠ []) :
    List.intercalate sep (a :: l) = a ++ sep ++ List.intercalate sep l := by
  cases l with
  | nil => exact absurd rfl h
  | cons b t => simp [List.intercalate, List.intersperse]

theorem splitLoop_intercalate {sep : List Nat} (hsep : sep ≠ []) :
    ∀ (fuel : Nat) (buf : List Nat), buf.length < fuel →
      List.intercalate sep (splitLoop sep fuel buf) = buf := by
  intro fuel
  induction fuel with
  | zero => intro buf h; omega
  | succ n ih =>
    intro buf hlen
    simp only [splitLoop]
    cases h : bufIndexOf buf sep with
    | none => simp [List.intercalate]
    | some i =>
      have hle := bufIndexOf_some_le h
      have hslen : 1 ≤ sep.length := by
        cases sep with
        | nil => exact absurd rfl hsep
        | cons a l => simp
      have hdrop : (buf.drop (i + sep.length)).length < n := by
        have := buf.length_drop (i + sep.length)
        omega
      have ihrec := ih (buf.drop (i + sep.length)) hdrop
      have hne := splitLoop_ne_nil sep n (buf.drop (i + sep.length))
      rw [intercalate_cons_of_ne_nil hne, ihrec]
      exact (bufIndexOf_spec h).symm

theorem isPrefixOf_append_self_false {base p : List Nat} (h : p.length ≤ base.length) :
    (base ++ [47]).isPrefixOf p = true → False := by
  intro hpre
  have hlen := (List.isPrefixOf_iff_prefix.mp hpre).length_le
  simp only [List.length_append, List.length_cons, List.length_nil] at hlen
  omega

/-- Unfolding of `safeJoin` when decoding succeeds. -/
theorem safeJoin_eq_of_decode {base url dec : List Nat}
    (hdec : percentDecode (takeBefore 63 url) = some dec) :
    safeJoin base url =
      some (if (base ++ [47]).isPrefixOf
              (pathJoin base ((takeBefore 35 dec).dropWhile (· == 47)))
            then some (pathJoin base ((takeBefore 35 dec).dropWhile (· == 47)))
            else none) := by
  simp only [safeJoin, hdec]

/-- `safeJoin` rejects when the stripped request path is empty: joining the
empty relative path onto a non-empty normalized root yields the root itself,
which does not start with `root + '/'`. -/
theorem safeJoin_stripped_empty {base url dec : List Nat} (hne : base ≠ [])
    (hnorm : normalizePath base = base)
    (hdec : percentDecode (takeBefore 63 url) = some dec)
    (hstrip : (takeBefore 35 dec).dropWhile (· == 47) = []) :
    safeJoin base url = some none := by
  rw [safeJoin_eq_of_decode hdec, hstrip]
  have hjoin : pathJoin base [] = base := by
    simp [pathJoin, hne, hnorm]
  rw [hjoin]
  rw [if_neg]
  intro hpre
  exact isPrefixOf_append_self_false (le_refl _) hpre

theorem sumLen_nil : sumLen [] = 0 := rfl

theorem sumLen_cons (c : List Nat) (l : List (List Nat)) :
    sumLen (c :: l) = c.length + sumLen l := by
  simp [sumLen]

/-- Below the limit, the streaming guard accepts and buffers the whole body. -/
theorem streamPhase_accepted (chunks : List (List Nat)) :
    ∀ total, total + sumLen chunks ≤ MAX_UPLOAD_BYTES →
      streamPhase total chunks = .accepted chunks.flatten := by
  induction chunks with
  | nil => intro total h; simp [streamPhase]
  | cons c rest ih =>
    intro total h
    have hsum := sumLen_cons c rest
    rw [streamPhase, if_neg (by omega), ih (total + c.length) (by omega)]
    simp

/-- Over the limit, the guard rejects exactly on the chunk that crosses the
threshold: the chunks before index `crossIdx` fit, and including that chunk
exceeds the limit. -/
theorem streamPhase_rejected (chunks : List (List Nat)) :
    ∀ total, total ≤ MAX_UPLOAD_BYTES → MAX_UPLOAD_BYTES < total + sumLen chunks →
      streamPhase total chunks = .rejectedAt (crossIdx total chunks) ∧
      total + sumLen (chunks.take (crossIdx total chunks)) ≤ MAX_UPLOAD_BYTES ∧
      MAX_UPLOAD_BYTES < total + sumLen (chunks.take (crossIdx total chunks + 1)) := by
  induction chunks with
  | nil =>
    intro total hle hgt
    simp only [sumLen, List.map_nil, List.sum_nil] at hgt
    omega
  | cons c rest ih =>
    intro total hle hgt
    have hsum := sumLen_cons c rest
    by_cases hc : MAX_UPLOAD_BYTES < total + c.length
    · refine ⟨?_, ?_, ?_⟩
      · simp [streamPhase, crossIdx, if_pos hc]
      · simp only [crossIdx, if_pos hc, List.take_zero, sumLen_nil]
        omega
      · simp only [crossIdx, if_pos hc, List.take_succ_cons, List.take_zero,
          sumLen_cons, sumLen_nil]
        omega
    · push_neg at hc
      have hrec := ih (total + c.length) hc (by omega)
      have hcneg : ¬MAX_UPLOAD_BYTES < total + c.length := by omega
      refine ⟨?_, ?_, ?_⟩
      · rw [streamPhase, if_neg hcneg, hrec.1]
        simp [crossIdx, if_neg hcneg]
      · simp only [crossIdx, if_neg hcneg, List.take_succ_cons, sumLen_cons]
        have h21 := hrec.2.1
        omega
      · simp only [crossIdx, if_neg hcneg, List.take_succ_cons, sumLen_cons]
        have h22 := hrec.2.2
        omega

/-! ## Claim theorems -/

/-- C1: for every root directory and every raw URL path, `safeJoin` returns
the rejected value (`null`) or a path that starts with the root directory
followed by the platform separator: whenever it returns a path `p` (rather
than rejecting, or propagating the `URIError` of a malformed escape),
`p` starts with `baseDir + '/'` - never a path outside the root. -/
theorem safeJoin_containment_c1 (baseDir urlPath p : List Nat)
    (h : safeJoin baseDir urlPath = some (some p)) :
    (baseDir ++ [47]).isPrefixOf p = true := by
  cases hdec : percentDecode (takeBefore 63 urlPath) with
  | none =>
    have hnone : safeJoin baseDir urlPath = none := by
      simp only [safeJoin, hdec]
    rw [hnone] at h
    cases h
  | some dec =>
    rw [safeJoin_eq_of_decode hdec] at h
    split at h
    · rename_i hc
      injection h with h1
      injection h1 with h2
      rw [← h2]
      exact hc
    · simp at h

/-- Witness for C1: on the request path `/a.txt` against root `/srv/public`,
`safeJoin` returns a path and that path starts with the root plus slash. -/
theorem safeJoin_containment_c1_witness :
    (ascii "/srv/public" ++ [47]).isPrefixOf (ascii "/srv/public/a.txt") = true :=
  safeJoin_containment_c1 (ascii "/srv/public") (ascii "/a.txt")
    (ascii "/srv/public/a.txt") (by decide)

/-- C4 counterexample: the claim says an empty-after-stripping path (here the
raw URL `/` against the root `/srv/public`) resolves to the root itself and
still passes the prefix check, i.e. is non-rejected; in fact `safeJoin`
returns the rejected value (`some none` in the model, i.e. `null`), because
`path.join(root, '')` is the root itself, which does not start with
`root + '/'`. -/
theorem root_exact_c4_counterexample :
    safeJoin (ascii "/srv/public") (ascii "/") = some none := by decide

/-- C4 (amended): for a request URL path that is empty or consists only of
slashes after stripping, `safeJoin` resolves it to the root directory itself
(for a non-empty, normalized root), and this result FAILS the prefix check:
`safeJoin` returns the rejected value, not a non-rejected path. -/
theorem root_exact_rejected_c4 (base url dec : List Nat) (hne : base ≠ [])
    (hnorm : normalizePath base = base)
    (hdec : percentDecode (takeBefore 63 url) = some dec)
    (hstrip : (takeBefore 35 dec).dropWhile (· == 47) = []) :
    safeJoin base url = some none :=
  safeJoin_stripped_empty hne hnorm hdec hstrip

/-- Witness for the amended C4: the slashes-only raw path `//` against the
root `/data/www` is rejected. -/
theorem root_exact_rejected_c4_witness :
    safeJoin (ascii "/data/www") (ascii "//") = some none :=
  root_exact_rejected_c4 (ascii "/data/www") (ascii "//") (ascii "//")
    (by decide) (by decide) (by decide) (by decide)

/-- C7: a POST /upload request whose content type contains
`multipart/form-data` but admits no `boundary=` match is answered 400
(`Missing boundary`); the result is this same response for every possible
body chunk list and leaves the filesystem untouched - the handler returns
before the `data`/`end` handlers are registered, so the body is never
read. -/
theorem missing_boundary_c7 (uploadDir : List Nat) (now : Nat) (ct : List Nat)
    (chunks : List (List Nat)) (fs : Fs)
    (hmp : bufIndexOf ct (ascii "multipart/form-data") ≠ none)
    (hnb : boundaryMatch ct = none) :
    handleUpload uploadDir now ct chunks fs = (⟨400, ascii "Missing boundary"⟩, fs) := by
  unfold handleUpload
  rw [if_neg hmp, hnb]

/-- Witness for C7: content type `multipart/form-data` (no boundary
parameter) with a non-empty body is answered 400 Missing boundary. -/
theorem missing_boundary_c7_witness :
    handleUpload (ascii "/srv/uploads") 7 ctNoBoundary [[72, 73]] [] =
      (⟨400, ascii "Missing boundary"⟩, []) :=
  missing_boundary_c7 (ascii "/srv/uploads") 7 ctNoBoundary [[72, 73]] [] (by decide)
    (by decide)

/-- C9: for every buffer and non-empty separator, `splitBuffer` returns one
fragment more than the number of separator occurrences found by
left-to-right scanning, and interleaving the separator back between the
fragments reconstructs the buffer byte-for-byte. -/
theorem splitBuffer_spec_c9 (buffer separator : List Nat) (hsep : separator ≠ []) :
    (splitBuffer buffer separator).length = countOccurrences buffer separator + 1 ∧
    List.intercalate separator (splitBuffer buffer separator) = buffer :=
  ⟨splitLoop_length separator (buffer.length + 1) buffer,
   splitLoop_intercalate hsep (buffer.length + 1) buffer (Nat.lt_succ_self _)⟩

/-- Witness for C9 at the buffer `[1,0,2,0]` and separator `[0]`. -/
theorem splitBuffer_spec_c9_witness :
    (splitBuffer [1, 0, 2, 0] [0]).length = countOccurrences [1, 0, 2, 0] [0] + 1 ∧
    List.intercalate [0] (splitBuffer [1, 0, 2, 0] [0]) = [1, 0, 2, 0] :=
  splitBuffer_spec_c9 [1, 0, 2, 0] [0] (by decide)

/-- C10: a GET whose raw URL is `/?x=1` is not served the index (the index
branch compares the raw URL against `/` and `/index.html` exactly); it falls
through to `safeJoin` against the public root, which resolves the stripped
path to the root itself, rejects it, and the response is 403 Forbidden. -/
theorem query_string_root_c10 (pub upl : List Nat) (now : Nat) (ct : List Nat)
    (chunks : List (List Nat)) (fs : Fs) (hne : pub ≠ [])
    (hnorm : normalizePath pub = pub) :
    server pub upl now (ascii "GET") (ascii "/?x=1") ct chunks fs =
      some (⟨403, ascii "Forbidden"⟩, fs) := by
  have hdec : percentDecode (takeBefore 63 (ascii "/?x=1")) = some (ascii "/") := by decide
  have hstrip : (takeBefore 35 (ascii "/")).dropWhile (· == 47) = [] := by decide
  have hsj : safeJoin pub (ascii "/?x=1") = some none :=
    safeJoin_stripped_empty hne hnorm hdec hstrip
  unfold server
  rw [if_neg (by decide), if_neg (by decide), if_neg (by decide), if_neg (by decide), hsj]

/-- Witness for C10 with public root `/app/public` and an empty filesystem. -/
theorem query_string_root_c10_witness :
    server (ascii "/app/public") (ascii "/app/uploads") 3 (ascii "GET") (ascii "/?x=1")
      [] [] [] = some (⟨403, ascii "Forbidden"⟩, []) :=
  query_string_root_c10 (ascii "/app/public") (ascii "/app/uploads") 3 [] [] []
    (by decide) (by decide)

/-- C3: for a streamed upload body under a valid multipart content type, a
total byte count exactly equal to the 10 MiB maximum is accepted (the size
guard never fires and the buffered body reaches the part loop), while a
total exceeding the maximum yields the 413 response with the filesystem
untouched (no file is written), the guard firing on exactly the chunk that
crosses the threshold: the chunks before it fit within the limit and
including it exceeds the limit. -/
theorem size_limit_c3 (uploadDir : List Nat) (now : Nat) (ct : List Nat)
    (chunks : List (List Nat)) (fs : Fs) (boundary : List Nat)
    (hmp : bufIndexOf ct (ascii "multipart/form-data") ≠ none)
    (hb : boundaryMatch ct = some boundary) :
    (sumLen chunks = MAX_UPLOAD_BYTES →
      handleUpload uploadDir now ct chunks fs =
        handleUploadEnd uploadDir now boundary chunks.flatten fs) ∧
    (MAX_UPLOAD_BYTES < sumLen chunks →
      handleUpload uploadDir now ct chunks fs = (⟨413, ascii "File too large"⟩, fs) ∧
      streamPhase 0 chunks = .rejectedAt (crossIdx 0 chunks) ∧
      sumLen (chunks.take (crossIdx 0 chunks)) ≤ MAX_UPLOAD_BYTES ∧
      MAX_UPLOAD_BYTES < sumLen (chunks.take (crossIdx 0 chunks + 1))) := by
  constructor
  · intro hsum
    have hacc : streamPhase 0 chunks = .accepted chunks.flatten :=
      streamPhase_accepted chunks 0 (by omega)
    unfold handleUpload
    rw [if_neg hmp, hb, hacc]
  · intro hsum
    have hrej := streamPhase_rejected chunks 0 (Nat.zero_le _) (by omega)
    refine ⟨?_, by simpa using hrej.1, by simpa using hrej.2.1, by simpa using hrej.2.2⟩
    unfold handleUpload
    rw [if_neg hmp, hb, hrej.1]

/-- Witness for C3: a single chunk one byte over the limit is answered 413
with the filesystem unchanged, and the guard fires on that chunk. -/
theorem size_limit_c3_witness :
    handleUpload (ascii "/srv/uploads") 9 ctWithBoundary
        [List.replicate (MAX_UPLOAD_BYTES + 1) 0] [] =
      (⟨413, ascii "File too large"⟩, []) ∧
    sumLen ([List.replicate (MAX_UPLOAD_BYTES + 1) 0].take
        (crossIdx 0 [List.replicate (MAX_UPLOAD_BYTES + 1) 0])) ≤ MAX_UPLOAD_BYTES := by
  have hsum : sumLen [List.replicate (MAX_UPLOAD_BYTES + 1) 0] = MAX_UPLOAD_BYTES + 1 := by
    rw [sumLen_cons, sumLen_nil, List.length_replicate]
  have h := (size_limit_c3 (ascii "/srv/uploads") 9 ctWithBoundary
    [List.replicate (MAX_UPLOAD_BYTES + 1) 0] [] (ascii "XYZ") (by decide) (by decide)).2
    (by omega)
  exact ⟨h.1, h.2.2.1⟩

/-- C8: method and path select exactly one branch of the router: POST
`/upload` goes to upload handling; otherwise a method outside GET/HEAD gets
405; for GET/HEAD, URL `/` or `/index.html` serves the index document from
the public root; a URL starting with `/uploads/` resolves against the upload
root and any other URL against the public root, a rejected resolution
yielding 403 in both resolving branches and a returned path being served. -/
theorem router_branches_c8 (pub upl : List Nat) (now : Nat)
    (method url ct : List Nat) (chunks : List (List Nat)) (fs : Fs) :
    (method = ascii "POST" ∧ url = ascii "/upload" →
      server pub upl now method url ct chunks fs =
        some (handleUpload upl now ct chunks fs)) ∧
    (¬(method = ascii "POST" ∧ url = ascii "/upload") →
     method ≠ ascii "GET" → method ≠ ascii "HEAD" →
      server pub upl now method url ct chunks fs =
        some (⟨405, ascii "Method Not Allowed"⟩, fs)) ∧
    ((method = ascii "GET" ∨ method = ascii "HEAD") →
     (url = ascii "/" ∨ url = ascii "/index.html") →
      server pub upl now method url ct chunks fs =
        some (serveFile (pathJoin pub (ascii "index.html")) fs, fs)) ∧
    ((method = ascii "GET" ∨ method = ascii "HEAD") →
     url ≠ ascii "/" → url ≠ ascii "/index.html" →
     (ascii "/uploads/").isPrefixOf url = true →
      (safeJoin upl (replaceOnce url (ascii "/uploads/")) = some none →
        server pub upl now method url ct chunks fs =
          some (⟨403, ascii "Forbidden"⟩, fs)) ∧
      (∀ p, safeJoin upl (replaceOnce url (ascii "/uploads/")) = some (some p) →
        server pub upl now method url ct chunks fs =
          some (serveFile p fs, fs))) ∧
    ((method = ascii "GET" ∨ method = ascii "HEAD") →
     url ≠ ascii "/" → url ≠ ascii "/index.html" →
     (ascii "/uploads/").isPrefixOf url = false →
      (safeJoin pub url = some none →
        server pub upl now method url ct chunks fs =
          some (⟨403, ascii "Forbidden"⟩, fs)) ∧
      (∀ p, safeJoin pub url = some (some p) →
        server pub upl now method url ct chunks fs =
          some (serveFile p fs, fs))) := by
  have hgp : ascii "GET" ≠ ascii "POST" := by decide
  have hhp : ascii "HEAD" ≠ ascii "POST" := by decide
  refine ⟨?_, ?_, ?_, ?_, ?_⟩
  · rintro ⟨hm, hu⟩
    unfold server
    rw [if_pos ⟨hm, hu⟩]
  · intro hnp hg hh
    unfold server
    rw [if_neg hnp, if_pos ⟨hg, hh⟩]
  · intro hm hu
    have hnp : ¬(method = ascii "POST" ∧ url = ascii "/upload") := by
      rintro ⟨hp, -⟩
      cases hm with
      | inl h => exact hgp (h ▸ hp ▸ rfl)
      | inr h => exact hhp (h ▸ hp ▸ rfl)
    have hgh : ¬(method ≠ ascii "GET" ∧ method ≠ ascii "HEAD") := by
      rintro ⟨hg, hh⟩
      cases hm with
      | inl h => exact hg h
      | inr h => exact hh h
    unfold server
    rw [if_neg hnp, if_neg hgh, if_pos hu]
  · intro hm hu1 hu2 hpre
    have hnp : ¬(method = ascii "POST" ∧ url = ascii "/upload") := by
      rintro ⟨hp, -⟩
      cases hm with
      | inl h => exact hgp (h ▸ hp ▸ rfl)
      | inr h => exact hhp (h ▸ hp ▸ rfl)
    have hgh : ¬(method ≠ ascii "GET" ∧ method ≠ ascii "HEAD") := by
      rintro ⟨hg, hh⟩
      cases hm with
      | inl h => exact hg h
      | inr h => exact hh h
    have hidx : ¬(url = ascii "/" ∨ url = ascii "/index.html") := by
      rintro (h | h)
      · exact hu1 h
      · exact hu2 h
    constructor
    · intro hsj
      unfold server
      rw [if_neg hnp, if_neg hgh, if_neg hidx, if_pos hpre, hsj]
    · intro p hsj
      unfold server
      rw [if_neg hnp, if_neg hgh, if_neg hidx, if_pos hpre, hsj]
  · intro hm hu1 hu2 hpre
    have hnp : ¬(method = ascii "POST" ∧ url = ascii "/upload") := by
      rintro ⟨hp, -⟩
      cases hm with
      | inl h => exact hgp (h ▸ hp ▸ rfl)
      | inr h => exact hhp (h ▸ hp ▸ rfl)
    have hgh : ¬(method ≠ ascii "GET" ∧ method ≠ ascii "HEAD") := by
      rintro ⟨hg, hh⟩
      cases hm with
      | inl h => exact hg h
      | inr h => exact hh h
    have hidx : ¬(url = ascii "/" ∨ url = ascii "/index.html") := by
      rintro (h | h)
      · exact hu1 h
      · exact hu2 h
    have hpre' : ¬((ascii "/uploads/").isPrefixOf url = true) := by
      rw [hpre]
      exact Bool.false_ne_true
    constructor
    · intro hsj
      unfold server
      rw [if_neg hnp, if_neg hgh, if_neg hidx, if_neg hpre', hsj]
    · intro p hsj
      unfold server
      rw [if_neg hnp, if_neg hgh, if_neg hidx, if_neg hpre', hsj]

/-- Witness for C8: a PUT request to `/x` (method outside GET/HEAD, not POST
`/upload`) is answered 405. -/
theorem router_branches_c8_witness :
    server (ascii "/p") (ascii "/u") 1 (ascii "PUT") (ascii "/x") [] [] [] =
      some (⟨405, ascii "Method Not Allowed"⟩, []) :=
  (router_branches_c8 (ascii "/p") (ascii "/u") 1 (ascii "PUT") (ascii "/x")
    [] [] []).2.1 (by decide) (by decide) (by decide)

set_option maxRecDepth 100000 in
/-- C2 (failing input): the upload round trip does not even begin.  For the
spec's own concrete scenario - POST `/upload`, boundary `XYZ`, one part with
field name `file`, filename `report.pdf` (an allowed extension) - the server
answers 400 `No file uploaded` and writes nothing: the greedy `.*` in the
disposition regex makes capture group 1 grab the *filename* value
(`report.pdf`), the filename group stays uncaptured, and the
`fieldName !== 'file' || !fileNameRaw` guard skips the part.  There is no
stored file to read back, so the claimed 200 round trip fails. -/
theorem upload_roundtrip_c2 :
    server (ascii "/srv/public") (ascii "/srv/uploads") 1700000000000 (ascii "POST")
        (ascii "/upload") ctWithBoundary [bodyPdf] [] =
      some (⟨400, ascii "No file uploaded"⟩, []) := by decide

set_option maxRecDepth 100000 in
/-- C5 (failing input): an upload whose only part carries field name `file`
and filename `evil.exe` (extension outside the allow-list) is answered 400
`No file uploaded`, not the claimed 415: the disposition regex captures
`evil.exe` as the field name, so the part never reaches the extension
check.  The filesystem is unchanged (no file written). -/
theorem ext_reject_c5 :
    handleUpload (ascii "/srv/uploads") 1700000000000 ctWithBoundary [bodyExe] [] =
      (⟨400, ascii "No file uploaded"⟩, []) := by decide

set_option maxRecDepth 100000 in
/-- C6 (failing input): a body with two well-formed file parts (field name
`file`, filenames `a.txt` and `c.txt`).  The claim says the first such part
is stored and iteration stops there; in fact the part loop skips both parts
(the regex bug makes the captured name the filename value) and the request
ends 400 with nothing stored - iteration did not stop at the first valid
file-candidate part. -/
theorem first_candidate_c6 :
    handleUploadEnd (ascii "/srv/uploads") 5 (ascii "B") bodyTwo [] =
      (⟨400, ascii "No file uploaded"⟩, []) := by decide
